import Mathlib

/-!
# Verification of `create_gdas_omi.py` (gdas-cmaqprep)

A shallow embedding of the core of `src/create_gdas_omi.py`: the grid
builder (`setup_grid`), longitude wrapping (`wrap_longitudes`), the daily
aggregation step (`process_files`), the IOAPI attribute block written by
`write_cmaq_format`, the fixed-width ASCII writer (`write_dat_format`),
the `.dat` combiner (`combine_dat_files`) and the configuration merge
(`parse_args` / `load_config`).

Python floats are modelled as exact rationals (`ℚ`); the IEEE `NaN`
sentinel is modelled by `Option ℚ` with `none` standing for `NaN`.
Filesystem contents are passed explicitly (an existence predicate for
input files, an association list of file names to line lists for the
combiner).  Run-clock attributes (`CDATE`, `CTIME`, `WDATE`, `WTIME`)
and the netCDF container plumbing are outside the model; the numeric
global attributes computed from the grid and date are embedded.
-/

namespace GdasCmaq

/-- Python's floored modulo on rationals (`x % m` with `m > 0`):
`x - m * ⌊x / m⌋`.  This is the semantics of both `float.__mod__` and
`numpy.mod` for a positive modulus. -/
def pymod (x m : ℚ) : ℚ := x - m * ⌊x / m⌋

/-- `GDASProcessor.wrap_longitudes`: `(lons + 180) % 360 - 180`,
converting longitudes from the `[0, 360)` convention to `[-180, 180)`.
The numpy expression is elementwise; this is the per-element function. -/
def wrap_longitudes (lon : ℚ) : ℚ := pymod (lon + 180) 360 - 180

/-- `numpy.linspace(a, b, n)`: `n` evenly spaced samples from `a` to `b`
inclusive, sample `i` being `a + i * (b - a) / (n - 1)`.  (For `n = 1`
the rational division by zero yields `0`, so the single sample is `a`,
matching numpy; for `n = 0` the list is empty.) -/
def linspace (a b : ℚ) (n : ℕ) : List ℚ :=
  (List.range n).map (fun i : ℕ => a + (i : ℚ) * ((b - a) / ((n : ℚ) - 1)))

/-- Latitude axis built by `GDASProcessor.setup_grid`:
`np.linspace(-90 + lat_border, 90 - lat_border, nlat)`. -/
def grid_lats (nlat : ℕ) (border : ℚ) : List ℚ :=
  linspace (-90 + border) (90 - border) nlat

/-- Longitude axis built by `GDASProcessor.setup_grid`:
`np.linspace(-180, 180, nlon)`. -/
def grid_lons (nlon : ℕ) : List ℚ :=
  linspace (-180) 180 nlon

/-- A 2-D field on the target grid, indexed by (latitude index,
longitude index).  `none` models the IEEE `NaN` missing-value sentinel
of the numpy arrays. -/
def Field := ℕ → ℕ → Option ℚ

/-- One cell of `xr.concat(datasets, dim='time').mean(dim='time')`
(`GDASProcessor.process_files`, the daily averaging step).  xarray's
`mean` reduction defaults to `skipna=True` for float data, so the mean
is taken over the non-`NaN` hourly values and is `NaN` only when every
hour is `NaN` at the cell. -/
def daily_mean (hours : List (Option ℚ)) : Option ℚ :=
  let present := hours.filterMap id
  if present.isEmpty then none
  else some (present.sum / (present.length : ℚ))

/-- The aggregated daily field: `daily_mean` applied cellwise across the
per-hour fields. -/
def daily_field (fields : List Field) : Field :=
  fun i j => daily_mean (fields.map (fun f => f i j))

/-- The date handed to the writers: the processing date's year and
(1-based) day of year, as produced by `date.timetuple().tm_yday`. -/
structure PDate where
  year : ℕ
  yday : ℕ
  deriving Repr, DecidableEq

/-- `int(date.strftime('%Y') + str(tm_yday).zfill(3))`, the IOAPI
`YYYYDDD` date.  For `yday ≤ 999` (always: `yday ≤ 366`) the string
concatenation equals `year * 1000 + yday`. -/
def ioapi_date (d : PDate) : ℤ := d.year * 1000 + d.yday

/-- The numeric global attributes set by `GDASProcessor.write_cmaq_format`
(lines 317–345).  Run-clock attributes (`CDATE`, `CTIME`, `WDATE`,
`WTIME`) and the free-text markers (`IOAPI_VERSION`, `EXEC_ID`,
`FILEDESC`) are outside the model. -/
structure IoapiAttrs where
  FTYPE : ℤ
  SDATE : ℤ
  STIME : ℤ
  TSTEP : ℤ
  NTHIK : ℤ
  NCOLS : ℤ
  NROWS : ℤ
  NLAYS : ℤ
  NVARS : ℤ
  GDTYP : ℤ
  P_ALP : ℚ
  P_BET : ℚ
  P_GAM : ℚ
  XCENT : ℚ
  YCENT : ℚ
  XORIG : ℚ
  YORIG : ℚ
  XCELL : ℚ
  YCELL : ℚ
  VGTYP : ℤ
  VGTOP : ℚ
  GDNAM : String

/-- The attribute block written by `GDASProcessor.write_cmaq_format`:
`XORIG = -180.0`, `YORIG = float(self.lats[-1])` (the source comments
this line "Southernmost latitude"), `XCELL = 360.0 / len(self.lons)`,
`YCELL = abs(self.lats[0] - self.lats[-1]) / (len(self.lats) - 1)`. -/
def write_cmaq_attrs (d : PDate) (lats lons : List ℚ) : IoapiAttrs where
  FTYPE := 1
  SDATE := ioapi_date d
  STIME := 0
  TSTEP := 240000
  NTHIK := 1
  NCOLS := lons.length
  NROWS := lats.length
  NLAYS := 1
  NVARS := 1
  GDTYP := 1
  P_ALP := 0
  P_BET := 0
  P_GAM := 0
  XCENT := 0
  YCENT := 0
  XORIG := -180
  YORIG := lats.getLastD 0
  XCELL := 360 / (lons.length : ℚ)
  YCELL := |lats.headD 0 - lats.getLastD 0| / ((lats.length : ℚ) - 1)
  VGTYP := 7
  VGTOP := 5000
  GDNAM := "OMI_CMAQ"

/-- Python's built-in `round` to the nearest integer, ties to even
(banker's rounding), as used in `int(round(data[i, j]))`. -/
def roundHalfEven (q : ℚ) : ℤ :=
  let f := ⌊q⌋
  let r := q - (f : ℚ)
  if r < 1 / 2 then f
  else if 1 / 2 < r then f + 1
  else if f % 2 = 0 then f else f + 1

/-- Right-justification to width `w` with spaces, as done by Python's
`{:wd}` / `{:w.pf}` format paddings (wider content is left intact). -/
def padLeft (w : ℕ) (s : String) : String :=
  String.mk (List.replicate (w - s.length) ' ') ++ s

/-- Zero-padding of a digit string to `p` digits. -/
def padZeros (w : ℕ) (s : String) : String :=
  String.mk (List.replicate (w - s.length) '0') ++ s

/-- Python's fixed-point formatting `f"{q:w.pf}"`: the value rounded to
`p` decimal places (ties to even), printed with exactly `p` decimals,
right-justified to width `w`. -/
def formatFixed (w p : ℕ) (q : ℚ) : String :=
  let n := roundHalfEven (q * (10 : ℚ) ^ p)
  let m := n.natAbs
  let ip := m / 10 ^ p
  let fp := m % 10 ^ p
  let core := (if n < 0 then "-" else "") ++ toString ip
    ++ (if p = 0 then "" else "." ++ padZeros p (toString fp))
  padLeft w core

/-- `year_frac = date.year + (date.timetuple().tm_yday - 1) / 365.0`
(`GDASProcessor.write_dat_format`). -/
def year_frac (d : PDate) : ℚ := (d.year : ℚ) + ((d.yday : ℚ) - 1) / 365

/-- One value written in a data row of the `.dat` file: the missing
sentinel `"     *"` when the cell is `NaN` or negative, otherwise
`f"{int(round(v)):6d}"`. -/
def dat_cell (data : Field) (i j : ℕ) : String :=
  match data i j with
  | none => "     *"
  | some v =>
    if v < 0 then "     *" else padLeft 6 (toString (roundHalfEven v))

/-- One data row of the `.dat` file for latitude index `i`: the writer
first emits `f"{year_frac:9.4f} {lat:7.1f} "` and then appends each
cell left to right (`for j in range(len(self.lons))`). -/
def dat_row_line (yf : ℚ) (lats : List ℚ) (nlon : ℕ) (data : Field)
    (i : ℕ) : String :=
  (List.range nlon).foldl (fun s j => s ++ dat_cell data i j)
    (formatFixed 9 4 yf ++ " " ++ formatFixed 7 1 (lats.getD i 0) ++ " ")

/-- The row loop `for i in range(len(self.lats)-1, -1, -1)`: emit the
line for index `n-1`, then `n-2`, …, then `0`. -/
def dat_rows_down (line : ℕ → String) : ℕ → List String
  | 0 => []
  | n + 1 => line n :: dat_rows_down line n

/-- The lines of the file written by `GDASProcessor.write_dat_format`:
the `nlat`/`nlon` headers, the column-header row (fixed labels followed
by each longitude as `f"{lon:7.2f}"`), then one data row per latitude,
from the last stored latitude down to the first. -/
def write_dat_lines (d : PDate) (lats lons : List ℚ) (data : Field) :
    List String :=
  ("nlat      " ++ toString lats.length) ::
  ("nlon      " ++ toString lons.length) ::
  (lons.foldl (fun s lon => s ++ formatFixed 7 2 lon) "yeardate latitude ") ::
  dat_rows_down (dat_row_line (year_frac d) lats lons.length data)
    lats.length

/-- Concatenation of a list of strings (used by the spec-side row
description below). -/
def strJoin (l : List String) : String := l.foldl (fun a b => a ++ b) ""

/-- Spec-side cell description (§4.5 of the spec): "if missing (`NaN` or
negative) emit a fixed 6-character sentinel `     *`, else the
rounded-to-nearest-integer value right-justified in 6 characters". -/
def spec_cell (v : Option ℚ) : String :=
  match v with
  | none => "     *"
  | some x =>
    if x < 0 then "     *" else padLeft 6 (toString (roundHalfEven x))

/-- Spec-side data-row description (§4.5 of the spec): "a
fractional-year value (9-wide/4-decimal), the latitude
(7-wide/1-decimal), then one value per longitude". -/
def spec_data_row (yf : ℚ) (lats : List ℚ) (nlon : ℕ) (data : Field)
    (i : ℕ) : String :=
  formatFixed 9 4 yf ++ " " ++ formatFixed 7 1 (lats.getD i 0) ++ " "
    ++ strJoin ((List.range nlon).map (fun j => spec_cell (data i j)))

/-- The glob pattern `gdas_cmaq_*.dat` used by `combine_dat_files`:
the name starts with `gdas_cmaq_` and ends with `.dat`. -/
def matches_dat_glob (name : String) : Bool :=
  "gdas_cmaq_".data.isPrefixOf name.data
    && ".dat".data.reverse.isPrefixOf name.data.reverse

/-- Strict lexicographic order on character lists by code point — the
order Python's `sorted` uses on path strings. -/
def lexLt : List Char → List Char → Bool
  | [], [] => false
  | [], _ :: _ => true
  | _ :: _, [] => false
  | c :: cs, d :: ds =>
    if c < d then true else if d < c then false else lexLt cs ds

/-- Non-strict name order on (file name, file lines) pairs. -/
def pathLe (a b : String × List String) : Prop :=
  lexLt a.1.data b.1.data = true ∨ a.1.data = b.1.data

instance : DecidableRel pathLe := fun a b => by
  unfold pathLe
  infer_instance

/-- `combine_dat_files(directory, output_file)`: glob the per-date
`.dat` files, sort them by name, and — when any exist — write the first
two header lines of the first file followed by every line after the
third of every file, in sorted order.  With no matching file nothing is
written (`none`; the source only logs a warning and returns).  A
directory is modelled as an association list of file names to their
line lists; Python's `sorted` is modelled by insertion sort (stable,
same order). -/
def combine_dat_files (dir : List (String × List String)) :
    Option (List String) :=
  match List.insertionSort pathLe
      (dir.filter (fun p => matches_dat_glob p.1)) with
  | [] => none
  | f0 :: rest =>
    some ((f0 :: rest).foldl (fun out f => out ++ f.2.drop 3) (f0.2.take 2))

/-- A configuration value: the YAML/argparse scalar types that occur in
the configuration (string, int, float, bool), plus `dt`, a `datetime`
object identified by the string it was parsed from
(`datetime.strptime(s, "%Y-%m-%d")`). -/
inductive CVal
  | s : String → CVal
  | i : ℤ → CVal
  | f : ℚ → CVal
  | b : Bool → CVal
  | dt : String → CVal
  deriving DecidableEq, Repr

/-- `key in config` on the dict modelled as an association list. -/
def containsKey (cfg : List (String × CVal)) (k : String) : Bool :=
  cfg.any (fun p => p.1 = k)

/-- `config[key]` lookup (first binding wins; `setVal` keeps keys
unique, matching dict semantics). -/
def getVal (cfg : List (String × CVal)) (k : String) : Option CVal :=
  (cfg.find? (fun p => p.1 = k)).map (fun p => p.2)

/-- `config[key] = value`: update in place if the key exists, else
append — Python dict assignment. -/
def setVal : List (String × CVal) → String → CVal → List (String × CVal)
  | [], k, v => [(k, v)]
  | p :: rest, k, v =>
    if p.1 = k then (k, v) :: rest else p :: setVal rest k v

/-- The command line actually typed by the user: `none` means the
option was not supplied; the four `store_true` flags are recorded by
presence. -/
structure CmdLine where
  config : Option String := none
  start_date : Option String := none
  end_date : Option String := none
  input_dir : Option String := none
  output_dir : Option String := none
  nlat : Option ℤ := none
  nlon : Option ℤ := none
  lat_border : Option ℚ := none
  use_prev_date : Bool := false
  create_full_files : Bool := false
  verbose : Bool := false
  download : Bool := false
  max_workers : Option ℤ := none

/-- `vars(parse_args())` as an ordered key/value list.  Typed options
without a default are `None` when not supplied; `--config` and
`--max-workers` fall back to their argparse defaults (`'config.yml'`,
`4`); the `store_true` flags are always present, `False` when the flag
was not given. -/
def parse_args (c : CmdLine) : List (String × Option CVal) :=
  [("config", some (.s (c.config.getD "config.yml"))),
   ("start_date", c.start_date.map CVal.s),
   ("end_date", c.end_date.map CVal.s),
   ("input_dir", c.input_dir.map CVal.s),
   ("output_dir", c.output_dir.map CVal.s),
   ("nlat", c.nlat.map CVal.i),
   ("nlon", c.nlon.map CVal.i),
   ("lat_border", c.lat_border.map CVal.f),
   ("use_prev_date", some (.b c.use_prev_date)),
   ("create_full_files", some (.b c.create_full_files)),
   ("verbose", some (.b c.verbose)),
   ("download", some (.b c.download)),
   ("max_workers", some (.i (c.max_workers.getD 4)))]

/-- The override loop at the end of `load_config`:
`for key, value in vars(args).items(): if value is not None and key in
config: config[key] = value`. -/
def merge_args (cfg : List (String × CVal))
    (args : List (String × Option CVal)) : List (String × CVal) :=
  args.foldl (fun acc kv =>
    match kv.2 with
    | some v => if containsKey acc kv.1 then setVal acc kv.1 v else acc
    | none => acc) cfg

/-- `datetime.strptime(v, '%Y-%m-%d')` applied to a config value; a
string becomes the datetime it denotes.  (The strings stored by
`load_config` are date strings; parse failure is outside the model.) -/
def toDatetime : CVal → CVal
  | .s s => .dt s
  | v => v

/-- `load_config(args)`: set `start_date`/`end_date` from the command
line when given (with `end_date` falling back to `start_date`), fail
unless both are present, convert both to datetimes, seed
`config['date']`, then run the command-line override loop. -/
def load_config (fileCfg : List (String × CVal)) (cl : CmdLine) :
    Except String (List (String × CVal)) :=
  let cfg := fileCfg
  let cfg := match cl.start_date with
    | some s => setVal cfg "start_date" (.s s)
    | none => cfg
  let cfg := match cl.end_date with
    | some s => setVal cfg "end_date" (.s s)
    | none => match cl.start_date with
      | some s => setVal cfg "end_date" (.s s)
      | none => cfg
  if containsKey cfg "start_date" && containsKey cfg "end_date" then
    match getVal cfg "start_date", getVal cfg "end_date" with
    | some sv, some ev =>
      let cfg := setVal cfg "start_date" (toDatetime sv)
      let cfg := setVal cfg "end_date" (toDatetime ev)
      let cfg := setVal cfg "date" (toDatetime sv)
      .ok (merge_args cfg (parse_args cl))
    | _, _ => .error "missing date value"
  else .error "Start and end dates must be specified in config file or command line"

/-- The net effect of the override loop on one key: the value of the
last `not None` occurrence of the key in the argument list, if any. -/
def final_assign : List (String × Option CVal) → String → Option CVal
  | [], _ => none
  | p :: rest, k =>
    match final_assign rest k with
    | some v => some v
    | none => if p.1 = k then p.2 else none

/-- The keys required by `GDASProcessor.validate_config`. -/
def required_keys : List String :=
  ["input_dir", "output_dir", "date", "nlat", "nlon",
   "lat_border", "use_prev_date", "create_full_files"]

/-- `GDASProcessor.validate_config`: collect the required keys missing
from the configuration and raise `ValueError` when any are; values are
never inspected. -/
def validate_config (cfg : List (String × CVal)) : Except String Unit :=
  let missing := required_keys.filter (fun k => !(containsKey cfg k))
  if missing.isEmpty then .ok ()
  else .error "Missing required config parameters"

/-- The error raised by `GDASProcessor.process_files` when the per-date
file list is empty: the source raises
`FileNotFoundError("No GDAS files found for date …")`, the failure the
spec's error taxonomy names `NoDataError`. -/
inductive ProcError
  | noData
  deriving DecidableEq, Repr

/-- The processor state `process_files` reads: the configured hours,
the per-date local file-name pattern (with the current date already
substituted — `main` mutates `config['date']` before each call), the
grid axes built by `setup_grid`, the processing date, and the
`use_prev_date` flag. -/
structure ProcConfig where
  use_prev_date : Bool
  hours : List ℕ
  pattern : ℕ → String
  lats : List ℚ
  lons : List ℚ
  date : PDate

/-- One axis pass of `xarray.DataArray.interpolate_na(dim,
method='nearest')`: an interior `NaN` takes the nearest valid
neighbour's value (ties toward the lower index); boundary `NaN` runs
have no valid neighbour on one side and are left unfilled (the call
does not extrapolate). -/
def nearest_fill (n : ℕ) (row : ℕ → Option ℚ) : ℕ → Option ℚ :=
  fun idx =>
    match row idx with
    | some v => some v
    | none =>
      let left := ((List.range idx).reverse).find? (fun j => (row j).isSome)
      let right := ((List.range n).drop (idx + 1)).find?
        (fun j => (row j).isSome)
      match left, right with
      | some jl, some jr =>
        if idx - jl ≤ jr - idx then row jl else row jr
      | _, _ => none

/-- `GDASProcessor.fill_missing_values`: the identity when
`use_prev_date` is false, otherwise nearest-neighbour interpolation
along longitude and then along latitude.  No call site exists in
`process_files`. -/
def fill_missing_values (cfg : ProcConfig) (f : Field) : Field :=
  if cfg.use_prev_date = false then f
  else
    let flon : Field :=
      fun i j => nearest_fill cfg.lons.length (fun j2 => f i j2) j
    fun i j => nearest_fill cfg.lats.length (fun i2 => flon i2 j) i

/-- The file list built by `process_files`: for each configured hour,
the file named by the local pattern, kept when it exists on disk. -/
def build_file_list (cfg : ProcConfig) (file_on_disk : String → Bool) :
    List String :=
  cfg.hours.filterMap (fun h =>
    if file_on_disk (cfg.pattern h) then some (cfg.pattern h) else none)

/-- `GDASProcessor.process_files`: build the per-date file list, fail
with `FileNotFoundError` when it is empty, read every file, average the
hours into the daily field, and hand that same field to both writers.
The result collects what is written: the netCDF attribute block and
field, and the `.dat` lines.  `read_gdas_file` (file → interpolated
field) is passed as an oracle. -/
def process_files (cfg : ProcConfig) (file_on_disk : String → Bool)
    (read_gdas_file : String → Field) :
    Except ProcError (IoapiAttrs × Field × List String) :=
  let files := build_file_list cfg file_on_disk
  if files.isEmpty then .error .noData
  else
    let daily := daily_field (files.map read_gdas_file)
    .ok (write_cmaq_attrs cfg.date cfg.lats cfg.lons, daily,
      write_dat_lines cfg.date cfg.lats cfg.lons daily)

/-- The date-range loop of `main`: each date's `process_files` call is
wrapped in `try/except`, so a failure is recorded (logged) and the loop
continues with the next date. -/
def main_date_loop
    (step : PDate → Except ProcError (IoapiAttrs × Field × List String)) :
    List PDate → List (PDate × Except ProcError (IoapiAttrs × Field × List String))
  | [] => []
  | d :: rest => (d, step d) :: main_date_loop step rest

/-- A concrete processor configuration for examples: the default hours
and local file pattern of 2020-01-01. -/
def example_proc_config : ProcConfig where
  use_prev_date := false
  hours := [0, 6, 12, 18]
  pattern := fun h => "gdas_20200101_" ++ toString h ++ ".grib2"
  lats := []
  lons := []
  date := ⟨2020, 1⟩

/-- Python runtime errors that `setup_grid` can raise. -/
inductive PyError
  | zeroDivisionError
  deriving DecidableEq, Repr

/-- `GDASProcessor.setup_grid`: computes
`lat_step = (180.0 - 2*lat_border) / (nlat - 1)` (raising
`ZeroDivisionError` when `nlat = 1`; the value itself is unused by the
rest of the function) and then builds the two `linspace` axes.  The
source performs no validation of `nlat`, `nlon` or `lat_border`. -/
def setup_grid (nlat nlon : ℕ) (border : ℚ) : Except PyError (List ℚ × List ℚ) :=
  if ((nlat : ℤ) - 1) = 0 then .error .zeroDivisionError
  else .ok (grid_lats nlat border, grid_lons nlon)

/-! ## Generic list-index helpers -/

theorem linspace_length (a b : ℚ) (n : ℕ) : (linspace a b n).length = n := by
  unfold linspace
  rw [List.length_map, List.length_range]

theorem linspace_getD (a b : ℚ) (n i : ℕ) (hi : i < n) :
    (linspace a b n).getD i 0 = a + i * ((b - a) / ((n : ℚ) - 1)) := by
  unfold linspace
  rw [List.getD_eq_getElem?_getD, List.getElem?_map, List.getElem?_range hi]
  rfl

theorem pymod_eq_mul_fract (x m : ℚ) (hm : m ≠ 0) :
    pymod x m = m * Int.fract (x / m) := by
  unfold pymod Int.fract
  rw [mul_sub, mul_div_cancel₀ _ hm]

theorem pymod_nonneg (x m : ℚ) (hm : 0 < m) : 0 ≤ pymod x m := by
  have h := Int.fract_nonneg (α := ℚ) (x / m)
  rw [pymod_eq_mul_fract x m (ne_of_gt hm)]
  positivity

theorem pymod_lt (x m : ℚ) (hm : 0 < m) : pymod x m < m := by
  have h := Int.fract_lt_one (α := ℚ) (x / m)
  rw [pymod_eq_mul_fract x m (ne_of_gt hm)]
  calc m * Int.fract (x / m) < m * 1 := by
        exact mul_lt_mul_of_pos_left h hm
    _ = m := mul_one m

theorem linspace_pairwise (a b : ℚ) (n : ℕ) (h2 : 2 ≤ n) (hab : a < b) :
    List.Pairwise (· < ·) (linspace a b n) := by
  rw [List.pairwise_iff_getElem]
  intro i j hi hj hij
  have hlen : (linspace a b n).length = n := linspace_length a b n
  simp only [linspace, List.getElem_map, List.getElem_range]
  have hs : 0 < (b - a) / ((n : ℚ) - 1) := by
    apply div_pos (by linarith)
    have : (2 : ℚ) ≤ (n : ℚ) := by exact_mod_cast h2
    linarith
  have hij' : (i : ℚ) < (j : ℚ) := by exact_mod_cast hij
  nlinarith

/-- **C4**: the longitude wrap `((lon + 180) mod 360) - 180` maps every
longitude in `[0, 360)` into `[-180, 180)`; concretely `wrap 350 = -10`,
`wrap 10 = 10`, and the boundary convention of the implementation gives
`wrap 0 = 0` (one of the two conventions the spec allows). -/
theorem wrap_longitudes_spec (lon : ℚ) (h0 : 0 ≤ lon) (h1 : lon < 360) :
    (-180 ≤ wrap_longitudes lon ∧ wrap_longitudes lon < 180) ∧
    wrap_longitudes 350 = -10 ∧ wrap_longitudes 10 = 10 ∧
    (wrap_longitudes 0 = -180 ∨ wrap_longitudes 0 = 0) := by
  have hm : (0 : ℚ) < 360 := by norm_num
  refine ⟨⟨?_, ?_⟩, ?_, ?_, Or.inr ?_⟩
  · have := pymod_nonneg (lon + 180) 360 hm
    unfold wrap_longitudes
    linarith
  · have := pymod_lt (lon + 180) 360 hm
    unfold wrap_longitudes
    linarith
  · unfold wrap_longitudes pymod
    rw [show ⌊((350 : ℚ) + 180) / 360⌋ = 1 by
      rw [Int.floor_eq_iff] <;> norm_num]
    norm_num
  · unfold wrap_longitudes pymod
    rw [show ⌊((10 : ℚ) + 180) / 360⌋ = 0 by
      rw [Int.floor_eq_iff] <;> norm_num]
    norm_num
  · unfold wrap_longitudes pymod
    rw [show ⌊((0 : ℚ) + 180) / 360⌋ = 0 by
      rw [Int.floor_eq_iff] <;> norm_num]
    norm_num

/-- Witness for `wrap_longitudes_spec` at `lon = 350`. -/
theorem wrap_longitudes_spec_witness :
    ((0 : ℚ) ≤ 350 ∧ (350 : ℚ) < 360) ∧
    ((-180 ≤ wrap_longitudes 350 ∧ wrap_longitudes 350 < 180) ∧
      wrap_longitudes 350 = -10 ∧ wrap_longitudes 10 = 10 ∧
      (wrap_longitudes 0 = -180 ∨ wrap_longitudes 0 = 0)) :=
  ⟨⟨by norm_num, by norm_num⟩,
    wrap_longitudes_spec 350 (by norm_num) (by norm_num)⟩

/-- **C5**: for `nlat, nlon ≥ 2` and `0 ≤ border < 90`, `setup_grid`
succeeds and produces two strictly monotonic, evenly spaced coordinate
axes: latitudes from `-90 + border` to `90 - border` (`nlat` points,
constant step `(180 - 2·border)/(nlat - 1)`) and longitudes from `-180`
to `180` (`nlon` points, constant step `360/(nlon - 1)`). -/
theorem setup_grid_spec (nlat nlon : ℕ) (border : ℚ)
    (hlat : 2 ≤ nlat) (hlon : 2 ≤ nlon) (hb0 : 0 ≤ border) (hb : border < 90) :
    setup_grid nlat nlon border = .ok (grid_lats nlat border, grid_lons nlon) ∧
    (grid_lats nlat border).length = nlat ∧
    (grid_lons nlon).length = nlon ∧
    (grid_lats nlat border).getD 0 0 = -90 + border ∧
    (grid_lats nlat border).getD (nlat - 1) 0 = 90 - border ∧
    (grid_lons nlon).getD 0 0 = -180 ∧
    (grid_lons nlon).getD (nlon - 1) 0 = 180 ∧
    (∀ i, i + 1 < nlat →
      (grid_lats nlat border).getD (i + 1) 0 - (grid_lats nlat border).getD i 0
        = (180 - 2 * border) / ((nlat : ℚ) - 1)) ∧
    (∀ j, j + 1 < nlon →
      (grid_lons nlon).getD (j + 1) 0 - (grid_lons nlon).getD j 0
        = 360 / ((nlon : ℚ) - 1)) ∧
    List.Pairwise (· < ·) (grid_lats nlat border) ∧
    List.Pairwise (· < ·) (grid_lons nlon) := by
  have hlatQ : (2 : ℚ) ≤ (nlat : ℚ) := by exact_mod_cast hlat
  have hlonQ : (2 : ℚ) ≤ (nlon : ℚ) := by exact_mod_cast hlon
  have hlat0 : ((nlat : ℚ) - 1) ≠ 0 := by linarith
  have hlon0 : ((nlon : ℚ) - 1) ≠ 0 := by linarith
  have hcastlat : ((nlat - 1 : ℕ) : ℚ) = (nlat : ℚ) - 1 := by
    have : 1 ≤ nlat := by omega
    push_cast [Nat.cast_sub this]
    ring
  have hcastlon : ((nlon - 1 : ℕ) : ℚ) = (nlon : ℚ) - 1 := by
    have : 1 ≤ nlon := by omega
    push_cast [Nat.cast_sub this]
    ring
  refine ⟨?_, linspace_length _ _ _, linspace_length _ _ _, ?_, ?_, ?_, ?_,
    ?_, ?_, ?_, ?_⟩
  · unfold setup_grid
    rw [if_neg (by omega)]
  · rw [grid_lats, linspace_getD _ _ _ 0 (by omega)]
    norm_num
  · rw [grid_lats, linspace_getD _ _ _ (nlat - 1) (by omega), hcastlat]
    field_simp
  · rw [grid_lons, linspace_getD _ _ _ 0 (by omega)]
    norm_num
  · rw [grid_lons, linspace_getD _ _ _ (nlon - 1) (by omega), hcastlon]
    field_simp
  · intro i hi
    rw [grid_lats, linspace_getD _ _ _ (i + 1) hi,
      linspace_getD _ _ _ i (by omega)]
    push_cast
    ring
  · intro j hj
    rw [grid_lons, linspace_getD _ _ _ (j + 1) hj,
      linspace_getD _ _ _ j (by omega)]
    push_cast
    ring
  · exact linspace_pairwise _ _ _ hlat (by linarith)
  · exact linspace_pairwise _ _ _ hlon (by norm_num)

/-- Witness for `setup_grid_spec` at `nlat = 720`, `nlon = 1440`,
`border = 1/8` (the spec's concrete example: first/last latitude
`±89.875`, longitudes spanning exactly `[-180, 180]`). -/
theorem setup_grid_spec_witness :
    (2 ≤ 720 ∧ 2 ≤ 1440 ∧ (0 : ℚ) ≤ 1 / 8 ∧ (1 / 8 : ℚ) < 90) ∧
    (setup_grid 720 1440 (1 / 8)
        = .ok (grid_lats 720 (1 / 8), grid_lons 1440) ∧
      (grid_lats 720 (1 / 8)).length = 720 ∧
      (grid_lons 1440).length = 1440 ∧
      (grid_lats 720 (1 / 8)).getD 0 0 = -90 + 1 / 8 ∧
      (grid_lats 720 (1 / 8)).getD (720 - 1) 0 = 90 - 1 / 8 ∧
      (grid_lons 1440).getD 0 0 = -180 ∧
      (grid_lons 1440).getD (1440 - 1) 0 = 180 ∧
      (∀ i, i + 1 < 720 →
        (grid_lats 720 (1 / 8)).getD (i + 1) 0
            - (grid_lats 720 (1 / 8)).getD i 0
          = (180 - 2 * (1 / 8)) / ((720 : ℚ) - 1)) ∧
      (∀ j, j + 1 < 1440 →
        (grid_lons 1440).getD (j + 1) 0 - (grid_lons 1440).getD j 0
          = 360 / ((1440 : ℚ) - 1)) ∧
      List.Pairwise (· < ·) (grid_lats 720 (1 / 8)) ∧
      List.Pairwise (· < ·) (grid_lons 1440)) :=
  ⟨⟨by norm_num, by norm_num, by norm_num, by norm_num⟩,
    setup_grid_spec 720 1440 (1 / 8) (by norm_num) (by norm_num)
      (by norm_num) (by norm_num)⟩

theorem grid_lats_three : grid_lats 3 0 = [-90, 0, 90] := by
  unfold grid_lats linspace
  rw [show (3 : ℕ) = 2 + 1 from rfl, List.range_succ, List.range_succ,
    List.range_succ, List.range_zero]
  norm_num

/-- **C1** (code divergence): on the 3-latitude, 4-longitude, border-0
grid, `write_cmaq_format` sets `XORIG`, `XCELL` and `YCELL` exactly as
the claim states, but `YORIG` is the *northernmost* target latitude
(`lats[-1] = 90`), not the southernmost (`-90`), even though `-90` is
the least element of the latitude axis and the source's own comment on
the assignment reads "Southernmost latitude". -/
theorem write_cmaq_attrs_yorig_divergence :
    (write_cmaq_attrs ⟨2020, 1⟩ (grid_lats 3 0) (grid_lons 4)).XORIG = -180 ∧
    (write_cmaq_attrs ⟨2020, 1⟩ (grid_lats 3 0) (grid_lons 4)).XCELL
        = 360 / (4 : ℚ) ∧
    (write_cmaq_attrs ⟨2020, 1⟩ (grid_lats 3 0) (grid_lons 4)).YCELL
        = |(-90 : ℚ) - 90| / ((3 : ℚ) - 1) ∧
    (grid_lats 3 0).headD 0 = -90 ∧
    (grid_lats 3 0).getLastD 0 = 90 ∧
    (∀ x ∈ grid_lats 3 0, -90 ≤ x) ∧
    (-90 : ℚ) ∈ grid_lats 3 0 ∧
    (write_cmaq_attrs ⟨2020, 1⟩ (grid_lats 3 0) (grid_lons 4)).YORIG = 90 ∧
    (write_cmaq_attrs ⟨2020, 1⟩ (grid_lats 3 0) (grid_lons 4)).YORIG ≠ -90 := by
  rw [write_cmaq_attrs, grid_lats_three]
  refine ⟨rfl, ?_, ?_, rfl, rfl, ?_, ?_, ?_, ?_⟩
  · show (360 : ℚ) / ((grid_lons 4).length : ℚ) = 360 / 4
    rw [grid_lons, linspace_length]
    norm_num
  · norm_num
  · intro x hx
    simp only [List.mem_cons, List.not_mem_nil, or_false] at hx
    rcases hx with rfl | rfl | rfl
    all_goals norm_num
  · simp
  · rfl
  · norm_num

/-- **C2** (counterexample to the claim as stated): a cell where one hour
is `NaN` and another is `10` averages to `10`, not `NaN` — the daily
aggregation is *not* the plain NaN-propagating mean. -/
theorem daily_mean_skips_nan_counterexample :
    daily_mean [none, some 10] = some 10 ∧
    daily_mean [none, some 10] ≠ none := by
  have hf : (([none, some 10] : List (Option ℚ)).filterMap id) = [10] := rfl
  have h : daily_mean [none, some 10] = some 10 := by
    unfold daily_mean
    rw [hf]
    norm_num
  exact ⟨h, by rw [h]; exact Option.some_ne_none _⟩

/-- **C2** (amended): the daily aggregation follows xarray's default
`skipna=True` mean: at each cell it averages the non-`NaN` hourly
values, and the result is `NaN` exactly when every hour is `NaN` there. -/
theorem daily_field_skipna (fields : List Field) (h : fields ≠ []) (i j : ℕ) :
    (daily_field fields i j = none ↔ ∀ f ∈ fields, f i j = none) ∧
    (∀ q : ℚ, daily_field fields i j = some q →
      q = ((fields.map (fun f => f i j)).filterMap id).sum
            / (((fields.map (fun f => f i j)).filterMap id).length : ℚ)) := by
  unfold daily_field daily_mean
  constructor
  · by_cases he : ((fields.map (fun f => f i j)).filterMap id).isEmpty
    · rw [if_pos he]
      simp only [List.isEmpty_iff, List.filterMap_eq_nil_iff, List.mem_map,
        id] at he
      constructor
      · intro _ f hf
        exact he (f i j) ⟨f, hf, rfl⟩
      · intro _
        rfl
    · rw [if_neg he]
      simp only [List.isEmpty_iff, List.filterMap_eq_nil_iff, List.mem_map,
        id] at he
      constructor
      · intro hc
        exact absurd hc (Option.some_ne_none _)
      · intro hall
        exact absurd (fun x hx => by
          obtain ⟨f, hf, rfl⟩ := hx
          exact hall f hf) he
  · intro q hq
    by_cases he : ((fields.map (fun f => f i j)).filterMap id).isEmpty
    · rw [if_pos he] at hq
      exact absurd hq.symm (Option.some_ne_none _)
    · rw [if_neg he] at hq
      exact (Option.some.injEq _ _ ▸ hq :
        ((fields.map (fun f => f i j)).filterMap id).sum
            / (((fields.map (fun f => f i j)).filterMap id).length : ℚ)
          = q).symm

/-- Witness for `daily_field_skipna`: the spec's concrete example, the
two hourly fields `[10, NaN]` and `[20, NaN]`. -/
theorem daily_field_skipna_witness :
    (([(fun _ j => if j = 0 then some 10 else none),
        (fun _ j => if j = 0 then some 20 else none)] : List Field) ≠ []) ∧
    ((daily_field
          [(fun _ j => if j = 0 then some 10 else none),
            (fun _ j => if j = 0 then some 20 else none)] 0 0 = none
        ↔ ∀ f ∈ ([(fun _ j => if j = 0 then some 10 else none),
            (fun _ j => if j = 0 then some 20 else none)] : List Field),
            f 0 0 = none) ∧
      (∀ q : ℚ,
        daily_field
            [(fun _ j => if j = 0 then some 10 else none),
              (fun _ j => if j = 0 then some 20 else none)] 0 0 = some q →
        q = ((([(fun _ j => if j = 0 then some 10 else none),
                (fun _ j => if j = 0 then some 20 else none)] : List Field).map
                  (fun f => f 0 0)).filterMap id).sum
              / (((([(fun _ j => if j = 0 then some 10 else none),
                (fun _ j => if j = 0 then some 20 else none)] : List Field).map
                  (fun f => f 0 0)).filterMap id).length : ℚ))) :=
  ⟨List.cons_ne_nil _ _,
    daily_field_skipna _ (List.cons_ne_nil _ _) 0 0⟩

theorem string_foldl_acc (l : List String) (a : String) :
    l.foldl (fun x y => x ++ y) a = a ++ strJoin l := by
  induction l generalizing a with
  | nil => simp [strJoin, String.append_empty]
  | cons x xs ih =>
    show xs.foldl (fun x y => x ++ y) (a ++ x) = a ++ strJoin (x :: xs)
    rw [ih]
    have : strJoin (x :: xs) = x ++ strJoin xs := by
      show xs.foldl (fun x y => x ++ y) ("" ++ x) = _
      rw [String.empty_append, ih]
    rw [this, String.append_assoc]

theorem foldl_append_strJoin {α : Type} (g : α → String) (l : List α)
    (a : String) :
    l.foldl (fun s j => s ++ g j) a = a ++ strJoin (l.map g) := by
  induction l generalizing a with
  | nil => simp [strJoin, String.append_empty]
  | cons x xs ih =>
    show xs.foldl (fun s j => s ++ g j) (a ++ g x) = a ++ strJoin (g x :: xs.map g)
    rw [ih]
    have : strJoin (g x :: xs.map g) = g x ++ strJoin (xs.map g) := by
      show (xs.map g).foldl (fun x y => x ++ y) ("" ++ g x) = _
      rw [String.empty_append, string_foldl_acc]
    rw [this, String.append_assoc]

theorem dat_rows_down_eq (line : ℕ → String) (n : ℕ) :
    dat_rows_down line n = (List.range n).reverse.map line := by
  induction n with
  | zero => rfl
  | succ k ih =>
    rw [dat_rows_down, ih, List.range_succ, List.reverse_append]
    rfl

theorem dat_cell_eq_spec_cell (data : Field) (i j : ℕ) :
    dat_cell data i j = spec_cell (data i j) := by
  unfold dat_cell spec_cell
  cases data i j <;> rfl

theorem dat_row_line_eq_spec (yf : ℚ) (lats : List ℚ) (nlon : ℕ)
    (data : Field) (i : ℕ) :
    dat_row_line yf lats nlon data i = spec_data_row yf lats nlon data i := by
  unfold dat_row_line spec_data_row
  rw [foldl_append_strJoin]
  rw [show dat_cell data i = (fun j => spec_cell (data i j))
    from funext (dat_cell_eq_spec_cell data i)]

/-- **C3**: the `.dat` writer emits exactly one data row per latitude,
iterating the internally south-to-north latitude axis in reverse so the
rows appear north to south; data row `k` (0-based, after the 3 header
lines) is the spec-side row for latitude index `nlat-1-k`: the
fractional year `f"{year + (yday-1)/365:9.4f}"`, the latitude
`f"{lat:7.1f}"`, then per longitude either the 6-character sentinel
`"     *"` (cell `NaN` or negative) or the value rounded to the nearest
integer (ties to even) right-justified in 6 characters. -/
theorem write_dat_format_spec (d : PDate) (lats lons : List ℚ)
    (data : Field) (hmono : List.Pairwise (· < ·) lats) :
    (write_dat_lines d lats lons data).length = 3 + lats.length ∧
    (∀ k, k < lats.length →
      (write_dat_lines d lats lons data).getD (3 + k) ""
        = spec_data_row (year_frac d) lats lons.length data
            (lats.length - 1 - k)) ∧
    (∀ i j, dat_cell data i j = spec_cell (data i j)) ∧
    (∀ k k2, k < k2 → k2 < lats.length →
      lats.getD (lats.length - 1 - k2) 0
        < lats.getD (lats.length - 1 - k) 0) := by
  refine ⟨?_, ?_, dat_cell_eq_spec_cell data, ?_⟩
  · unfold write_dat_lines
    rw [dat_rows_down_eq]
    simp only [List.length_cons, List.length_map, List.length_reverse,
      List.length_range]
    omega
  · intro k hk
    unfold write_dat_lines
    rw [show 3 + k = k + 1 + 1 + 1 by omega, List.getD_cons_succ,
      List.getD_cons_succ, List.getD_cons_succ]
    rw [dat_rows_down_eq, List.getD_eq_getElem?_getD,
      List.getElem?_map,
      List.getElem?_reverse (by rw [List.length_range]; exact hk),
      List.length_range, List.getElem?_range (by omega)]
    show dat_row_line (year_frac d) lats lons.length data _ = _
    rw [dat_row_line_eq_spec]
  · intro k k2 hkk hk2
    have h1 : lats.length - 1 - k2 < lats.length := by omega
    have h2 : lats.length - 1 - k < lats.length := by omega
    rw [List.getD_eq_getElem lats 0 h1, List.getD_eq_getElem lats 0 h2]
    exact (List.pairwise_iff_getElem.mp hmono) _ _ h1 h2 (by omega)

/-- Witness for `write_dat_format_spec`: the spec's 2×2 example grid,
latitudes stored south-to-north as `[-10, 10]`, longitudes `[0, 1]`,
data rows `[NaN, 3.6]` (for latitude -10) and `[5.4, -1]` (for
latitude 10). -/
theorem write_dat_format_spec_witness :
    List.Pairwise (· < ·) ([-10, 10] : List ℚ) ∧
    ((write_dat_lines ⟨2020, 1⟩ [-10, 10] [0, 1]
        (fun i j => if i = 0 then (if j = 0 then none else some (18 / 5))
          else (if j = 0 then some (27 / 5) else some (-1)))).length
        = 3 + ([-10, 10] : List ℚ).length ∧
      (∀ k, k < ([-10, 10] : List ℚ).length →
        (write_dat_lines ⟨2020, 1⟩ [-10, 10] [0, 1]
            (fun i j => if i = 0 then (if j = 0 then none else some (18 / 5))
              else (if j = 0 then some (27 / 5) else some (-1)))).getD
            (3 + k) ""
          = spec_data_row (year_frac ⟨2020, 1⟩) [-10, 10]
              ([0, 1] : List ℚ).length
              (fun i j => if i = 0 then (if j = 0 then none else some (18 / 5))
                else (if j = 0 then some (27 / 5) else some (-1)))
              (([-10, 10] : List ℚ).length - 1 - k)) ∧
      (∀ i j, dat_cell
          (fun i j => if i = 0 then (if j = 0 then none else some (18 / 5))
            else (if j = 0 then some (27 / 5) else some (-1))) i j
        = spec_cell
            ((fun i j => if i = 0 then (if j = 0 then none else some (18 / 5))
              else (if j = 0 then some (27 / 5) else some (-1))) i j)) ∧
      (∀ k k2, k < k2 → k2 < ([-10, 10] : List ℚ).length →
        ([-10, 10] : List ℚ).getD (([-10, 10] : List ℚ).length - 1 - k2) 0
          < ([-10, 10] : List ℚ).getD
              (([-10, 10] : List ℚ).length - 1 - k) 0)) :=
  ⟨by decide,
    write_dat_format_spec ⟨2020, 1⟩ [-10, 10] [0, 1]
      (fun i j => if i = 0 then (if j = 0 then none else some (18 / 5))
        else (if j = 0 then some (27 / 5) else some (-1)))
      (by decide)⟩

theorem lexLt_trans :
    ∀ a b c : List Char, lexLt a b = true → lexLt b c = true →
      lexLt a c = true := by
  intro a
  induction a with
  | nil =>
    intro b c hab hbc
    cases b with
    | nil => exact absurd hab (by simp [lexLt])
    | cons y ys =>
      cases c with
      | nil => exact absurd hbc (by simp [lexLt])
      | cons z zs => simp [lexLt]
  | cons x xs ih =>
    intro b c hab hbc
    cases b with
    | nil => exact absurd hab (by simp [lexLt])
    | cons y ys =>
      cases c with
      | nil => exact absurd hbc (by simp [lexLt])
      | cons z zs =>
        unfold lexLt at hab hbc ⊢
        rcases lt_trichotomy x y with h1 | h1 | h1
        · rcases lt_trichotomy y z with h2 | h2 | h2
          · simp [lt_trans h1 h2]
          · subst h2
            simp [h1]
          · rw [if_neg (asymm h2), if_pos h2] at hbc
            exact absurd hbc Bool.false_ne_true
        · subst h1
          rw [if_neg (lt_irrefl x), if_neg (lt_irrefl x)] at hab
          rcases lt_trichotomy x z with h2 | h2 | h2
          · simp [h2]
          · subst h2
            rw [if_neg (lt_irrefl x), if_neg (lt_irrefl x)] at hbc ⊢
            exact ih ys zs hab hbc
          · rw [if_neg (asymm h2), if_pos h2] at hbc
            exact absurd hbc Bool.false_ne_true
        · rw [if_neg (asymm h1), if_pos h1] at hab
          exact absurd hab Bool.false_ne_true

theorem lexLt_total (a b : List Char) :
    lexLt a b = true ∨ a = b ∨ lexLt b a = true := by
  induction a generalizing b with
  | nil =>
    cases b with
    | nil => exact Or.inr (Or.inl rfl)
    | cons y ys => exact Or.inl (by simp [lexLt])
  | cons x xs ih =>
    cases b with
    | nil => exact Or.inr (Or.inr (by simp [lexLt]))
    | cons y ys =>
      rcases lt_trichotomy x y with hxy | hxy | hxy
      · exact Or.inl (by simp [lexLt, hxy])
      · subst hxy
        rcases ih ys with h | h | h
        · exact Or.inl (by simp [lexLt, h])
        · exact Or.inr (Or.inl (by rw [h]))
        · exact Or.inr (Or.inr (by simp [lexLt, h]))
      · exact Or.inr (Or.inr (by simp [lexLt, hxy, asymm hxy]))

instance : IsTrans (String × List String) pathLe := by
  constructor
  intro a b c hab hbc
  rcases hab with hab | hab
  · rcases hbc with hbc | hbc
    · exact Or.inl (lexLt_trans _ _ _ hab hbc)
    · exact Or.inl (hbc ▸ hab)
  · rcases hbc with hbc | hbc
    · exact Or.inl (hab ▸ hbc)
    · exact Or.inr (hab.trans hbc)

instance : IsTotal (String × List String) pathLe := by
  constructor
  intro a b
  rcases lexLt_total a.1.data b.1.data with h | h | h
  · exact Or.inl (Or.inl h)
  · exact Or.inl (Or.inr h)
  · exact Or.inr (Or.inl h)

theorem foldl_append_flatten {α β : Type} (g : α → List β) (l : List α)
    (a : List β) :
    l.foldl (fun out f => out ++ g f) a = a ++ (l.map g).flatten := by
  induction l generalizing a with
  | nil => simp
  | cons x xs ih =>
    show xs.foldl (fun out f => out ++ g f) (a ++ g x) = _
    rw [ih]
    simp

/-- **C6**: when no file in the directory matches `gdas_cmaq_*.dat` the
combiner writes nothing; otherwise the output is the first two header
lines of the name-wise least matching file followed by every line after
the third of every matching file, in sorted name order, and (when every
matching file has at least its 3 header lines) the number of data lines
in the output is the sum of the inputs' data-line counts. -/
theorem combine_dat_files_spec (dir : List (String × List String))
    (h3 : ∀ p ∈ dir, matches_dat_glob p.1 = true → 3 ≤ p.2.length) :
    ((dir.filter (fun p => matches_dat_glob p.1)) = [] →
      combine_dat_files dir = none) ∧
    (∀ f0 rest,
      List.insertionSort pathLe (dir.filter (fun p => matches_dat_glob p.1))
          = f0 :: rest →
      combine_dat_files dir
          = some (f0.2.take 2
              ++ (((f0 :: rest).map (fun f => f.2.drop 3)).flatten)) ∧
      List.Sorted pathLe (f0 :: rest) ∧
      (∀ p ∈ dir.filter (fun p => matches_dat_glob p.1), pathLe f0 p) ∧
      (f0.2.take 2
          ++ (((f0 :: rest).map (fun f => f.2.drop 3)).flatten)).length
        = 2 + ((dir.filter (fun p => matches_dat_glob p.1)).map
            (fun p => p.2.length - 3)).sum) := by
  constructor
  · intro hm
    unfold combine_dat_files
    rw [hm]
    rfl
  · intro f0 rest hs
    have hperm :
        (List.insertionSort pathLe
          (dir.filter (fun p => matches_dat_glob p.1))).Perm
          (dir.filter (fun p => matches_dat_glob p.1)) :=
      List.perm_insertionSort pathLe _
    have hmem0 : f0 ∈ dir.filter (fun p => matches_dat_glob p.1) := by
      rw [← hperm.mem_iff, hs]
      exact List.mem_cons_self f0 rest
    have hmem0' : f0 ∈ dir := List.mem_of_mem_filter hmem0
    have hglob0 : matches_dat_glob f0.1 = true := by
      have := List.of_mem_filter hmem0
      simpa using this
    have hlen0 : 3 ≤ f0.2.length := h3 f0 hmem0' hglob0
    have hsorted : List.Sorted pathLe (f0 :: rest) := by
      rw [← hs]
      exact List.sorted_insertionSort pathLe _
    refine ⟨?_, hsorted, ?_, ?_⟩
    · unfold combine_dat_files
      rw [hs]
      show some ((f0 :: rest).foldl (fun out f => out ++ f.2.drop 3)
        (f0.2.take 2)) = _
      rw [foldl_append_flatten]
    · intro p hp
      have hp' : p ∈ f0 :: rest := by
        rw [← hs, hperm.mem_iff]
        exact hp
      rcases List.mem_cons.mp hp' with rfl | hp2
      · rcases lexLt_total p.1.data p.1.data with h | h | h
        · exact Or.inl h
        · exact Or.inr h
        · exact Or.inl h
      · exact (List.sorted_cons.mp hsorted).1 p hp2
    · rw [List.length_append, List.length_take, List.length_flatten,
        List.map_map]
      have hmin : min 2 f0.2.length = 2 := by omega
      have hmaps :
          ((f0 :: rest).map (List.length ∘ fun f => f.2.drop 3)).sum
            = ((dir.filter (fun p => matches_dat_glob p.1)).map
                (fun p => p.2.length - 3)).sum := by
        have hfun : (List.length ∘ fun f : String × List String =>
            f.2.drop 3) = fun p => p.2.length - 3 := by
          funext p
          simp [List.length_drop]
        rw [hfun]
        exact ((hs ▸ hperm).map
          (fun p : String × List String => p.2.length - 3)).sum_eq
      rw [hmin, hmaps]

/-- Witness for `combine_dat_files_spec`: a directory with two
single-data-line `.dat` files (the spec's File Combiner example). -/
theorem combine_dat_files_spec_witness :
    (∀ p ∈ ([("gdas_cmaq_20200102.dat", ["h1", "h2", "h3", "d2"]),
        ("gdas_cmaq_20200101.dat", ["h1", "h2", "h3", "d1"])] :
        List (String × List String)),
      matches_dat_glob p.1 = true → 3 ≤ p.2.length) ∧
    ((([("gdas_cmaq_20200102.dat", ["h1", "h2", "h3", "d2"]),
          ("gdas_cmaq_20200101.dat", ["h1", "h2", "h3", "d1"])] :
          List (String × List String)).filter
            (fun p => matches_dat_glob p.1) = [] →
        combine_dat_files
          [("gdas_cmaq_20200102.dat", ["h1", "h2", "h3", "d2"]),
            ("gdas_cmaq_20200101.dat", ["h1", "h2", "h3", "d1"])] = none) ∧
      (∀ f0 rest,
        List.insertionSort pathLe
            (([("gdas_cmaq_20200102.dat", ["h1", "h2", "h3", "d2"]),
              ("gdas_cmaq_20200101.dat", ["h1", "h2", "h3", "d1"])] :
              List (String × List String)).filter
                (fun p => matches_dat_glob p.1))
            = f0 :: rest →
        combine_dat_files
            [("gdas_cmaq_20200102.dat", ["h1", "h2", "h3", "d2"]),
              ("gdas_cmaq_20200101.dat", ["h1", "h2", "h3", "d1"])]
            = some (f0.2.take 2
                ++ (((f0 :: rest).map (fun f => f.2.drop 3)).flatten)) ∧
        List.Sorted pathLe (f0 :: rest) ∧
        (∀ p ∈ (([("gdas_cmaq_20200102.dat", ["h1", "h2", "h3", "d2"]),
            ("gdas_cmaq_20200101.dat", ["h1", "h2", "h3", "d1"])] :
            List (String × List String)).filter
              (fun p => matches_dat_glob p.1)), pathLe f0 p) ∧
        (f0.2.take 2
            ++ (((f0 :: rest).map (fun f => f.2.drop 3)).flatten)).length
          = 2 + ((([("gdas_cmaq_20200102.dat", ["h1", "h2", "h3", "d2"]),
              ("gdas_cmaq_20200101.dat", ["h1", "h2", "h3", "d1"])] :
              List (String × List String)).filter
                (fun p => matches_dat_glob p.1)).map
              (fun p => p.2.length - 3)).sum)) :=
  ⟨by decide,
    combine_dat_files_spec
      [("gdas_cmaq_20200102.dat", ["h1", "h2", "h3", "d2"]),
        ("gdas_cmaq_20200101.dat", ["h1", "h2", "h3", "d1"])]
      (by decide)⟩

theorem containsKey_setVal (cfg : List (String × CVal)) (k : String)
    (v : CVal) (k2 : String) :
    containsKey (setVal cfg k v) k2
      = (containsKey cfg k2 || decide (k = k2)) := by
  induction cfg with
  | nil => simp [containsKey, setVal, List.any_cons, eq_comm]
  | cons p rest ih =>
    unfold setVal
    by_cases hp : p.1 = k
    · rw [if_pos hp]
      simp only [containsKey, List.any_cons] at *
      by_cases hk2 : k = k2
      · simp [hk2, hp]
      · simp [hk2, hp]
    · rw [if_neg hp]
      simp only [containsKey, List.any_cons] at *
      rw [ih]
      cases h : decide (p.1 = k2) <;> simp [Bool.or_assoc]

theorem getVal_setVal_self (cfg : List (String × CVal)) (k : String)
    (v : CVal) : getVal (setVal cfg k v) k = some v := by
  induction cfg with
  | nil => simp [getVal, setVal, List.find?]
  | cons p rest ih =>
    unfold setVal
    by_cases hp : p.1 = k
    · rw [if_pos hp]
      simp [getVal, List.find?]
    · rw [if_neg hp]
      unfold getVal at *
      rw [List.find?_cons_of_neg _ (by simpa using hp)]
      exact ih

theorem getVal_setVal_ne (cfg : List (String × CVal)) (k : String)
    (v : CVal) (k2 : String) (hne : k ≠ k2) :
    getVal (setVal cfg k v) k2 = getVal cfg k2 := by
  induction cfg with
  | nil => simp [getVal, setVal, List.find?, hne]
  | cons p rest ih =>
    unfold setVal
    by_cases hp : p.1 = k
    · rw [if_pos hp]
      unfold getVal
      rw [List.find?_cons_of_neg _ (by simpa using hne),
        List.find?_cons_of_neg _ (by rw [hp]; simpa using hne)]
    · rw [if_neg hp]
      by_cases hp2 : p.1 = k2
      · unfold getVal
        rw [List.find?_cons_of_pos _ (by simpa using hp2),
          List.find?_cons_of_pos _ (by simpa using hp2)]
      · unfold getVal at *
        rw [List.find?_cons_of_neg _ (by simpa using hp2),
          List.find?_cons_of_neg _ (by simpa using hp2)]
        exact ih

theorem merge_args_getVal (args : List (String × Option CVal)) :
    ∀ (cfg : List (String × CVal)) (k : String),
    getVal (merge_args cfg args) k =
      if containsKey cfg k then
        (match final_assign args k with
          | some v => some v
          | none => getVal cfg k)
      else getVal cfg k := by
  induction args with
  | nil =>
    intro cfg k
    unfold merge_args final_assign
    simp only [List.foldl_nil]
    split <;> rfl
  | cons p rest ih =>
    intro cfg k
    obtain ⟨p1, p2⟩ := p
    rcases p2 with _ | v
    · -- value is None: the loop skips this key entirely
      have hstep : merge_args cfg ((p1, none) :: rest)
          = merge_args cfg rest := rfl
      rw [hstep, ih]
      have hfa2 : final_assign ((p1, none) :: rest) k
          = final_assign rest k := by
        conv_lhs => unfold final_assign
        cases hfar : final_assign rest k with
        | none => simp
        | some w => rfl
      rw [hfa2]
    · -- value present: assigned iff the key already exists
      have hstep : merge_args cfg ((p1, some v) :: rest)
          = merge_args
              (if containsKey cfg p1 then setVal cfg p1 v else cfg)
              rest := rfl
      rw [hstep, ih]
      by_cases hck : containsKey cfg p1
      · rw [if_pos hck]
        have hcsame : containsKey (setVal cfg p1 v) k = containsKey cfg k := by
          rw [containsKey_setVal]
          by_cases he : p1 = k
          · simp [he, he ▸ hck]
          · simp [he]
        rw [hcsame]
        by_cases hp : p1 = k
        · subst hp
          have hfa2 : final_assign ((p1, some v) :: rest) p1
              = match final_assign rest p1 with
                | some w => some w
                | none => some v := by
            conv_lhs => unfold final_assign
            cases hfar : final_assign rest p1 with
            | none => simp
            | some w => rfl
          rw [hfa2]
          rcases hfa : final_assign rest p1 with _ | w
          · rw [if_pos hck, if_pos hck]
            show getVal (setVal cfg p1 v) p1 = some v
            exact getVal_setVal_self cfg p1 v
          · rw [if_pos hck, if_pos hck]
        · rw [getVal_setVal_ne cfg p1 v k hp]
          have hfa2 : final_assign ((p1, some v) :: rest) k
              = final_assign rest k := by
            conv_lhs => unfold final_assign
            cases hfar : final_assign rest k with
            | none => simp [hp]
            | some w => rfl
          rw [hfa2]
      · rw [if_neg hck]
        by_cases hp : p1 = k
        · subst hp
          rw [if_neg hck, if_neg hck]
        · have hfa2 : final_assign ((p1, some v) :: rest) k
              = final_assign rest k := by
            conv_lhs => unfold final_assign
            cases hfar : final_assign rest k with
            | none => simp [hp]
            | some w => rfl
          rw [hfa2]

theorem load_config_merge_shape (cfg X : List (String × CVal))
    (cl : CmdLine) (sv ev dv : CVal)
    (hX : ∀ k, k ≠ "start_date" → k ≠ "end_date" →
      getVal X k = getVal cfg k ∧ containsKey X k = containsKey cfg k) :
    (∀ k v, k ≠ "start_date" → k ≠ "end_date" → k ≠ "date" →
      final_assign (parse_args cl) k = some v → containsKey cfg k = true →
      getVal (merge_args (setVal (setVal (setVal X "start_date" sv)
        "end_date" ev) "date" dv) (parse_args cl)) k = some v) ∧
    (∀ k, k ≠ "start_date" → k ≠ "end_date" → k ≠ "date" →
      final_assign (parse_args cl) k = none →
      getVal (merge_args (setVal (setVal (setVal X "start_date" sv)
        "end_date" ev) "date" dv) (parse_args cl)) k = getVal cfg k) := by
  have hpres : ∀ k, k ≠ "start_date" → k ≠ "end_date" → k ≠ "date" →
      getVal (setVal (setVal (setVal X "start_date" sv) "end_date" ev)
          "date" dv) k = getVal cfg k ∧
      containsKey (setVal (setVal (setVal X "start_date" sv) "end_date" ev)
          "date" dv) k = containsKey cfg k := by
    intro k h1 h2 h3
    constructor
    · rw [getVal_setVal_ne _ _ _ _ (Ne.symm h3),
        getVal_setVal_ne _ _ _ _ (Ne.symm h2),
        getVal_setVal_ne _ _ _ _ (Ne.symm h1)]
      exact (hX k h1 h2).1
    · rw [containsKey_setVal, containsKey_setVal, containsKey_setVal,
        decide_eq_false (Ne.symm h1), decide_eq_false (Ne.symm h2),
        decide_eq_false (Ne.symm h3), Bool.or_false, Bool.or_false,
        Bool.or_false]
      exact (hX k h1 h2).2
  constructor
  · intro k v h1 h2 h3 hfa hck
    rw [merge_args_getVal, (hpres k h1 h2 h3).2, hck, if_pos rfl, hfa]
  · intro k h1 h2 h3 hfa
    rw [merge_args_getVal, (hpres k h1 h2 h3).2, hfa]
    by_cases hc : containsKey cfg k
    · rw [if_pos hc]
      exact (hpres k h1 h2 h3).1
    · rw [if_neg hc]
      exact (hpres k h1 h2 h3).1

/-- **C7** (counterexample to the claim as stated): `use_prev_date` is a
`store_true` flag, so its parsed value is `False` — not `None` — when
the flag is absent from the command line; the override loop therefore
replaces the file's `use_prev_date: true` with `False` even though the
key was never supplied on the command line. -/
theorem load_config_unsupplied_flag_counterexample :
    (load_config
        [("start_date", .s "2020-01-01"), ("end_date", .s "2020-01-02"),
          ("use_prev_date", .b true)] {}).map
        (fun out => getVal out "use_prev_date")
      = .ok (some (.b false)) ∧
    getVal [("start_date", .s "2020-01-01"), ("end_date", .s "2020-01-02"),
      ("use_prev_date", .b true)] "use_prev_date" = some (.b true) :=
  ⟨rfl, rfl⟩

/-- **C7** (amended): for every key (other than the specially handled
`start_date`/`end_date`/`date`) the merged configuration holds the
parsed-namespace value whenever that value is not `None` and the key is
present in the file, and keeps the file value whenever the namespace
value is `None`; since `store_true` flags always parse to a non-`None`
boolean, a file-present `use_prev_date` always ends up equal to the
flag's presence on the command line — `False`, overriding the file,
when the flag was not supplied. -/
theorem load_config_override (cfg : List (String × CVal)) (cl : CmdLine)
    (out : List (String × CVal)) (hok : load_config cfg cl = .ok out) :
    (∀ k v, k ≠ "start_date" → k ≠ "end_date" → k ≠ "date" →
      final_assign (parse_args cl) k = some v → containsKey cfg k = true →
      getVal out k = some v) ∧
    (∀ k, k ≠ "start_date" → k ≠ "end_date" → k ≠ "date" →
      final_assign (parse_args cl) k = none →
      getVal out k = getVal cfg k) ∧
    (containsKey cfg "use_prev_date" = true →
      getVal out "use_prev_date" = some (.b cl.use_prev_date)) := by
  have hfaflag : final_assign (parse_args cl) "use_prev_date"
      = some (.b cl.use_prev_date) := rfl
  suffices hsuf :
      (∀ k v, k ≠ "start_date" → k ≠ "end_date" → k ≠ "date" →
        final_assign (parse_args cl) k = some v → containsKey cfg k = true →
        getVal out k = some v) ∧
      (∀ k, k ≠ "start_date" → k ≠ "end_date" → k ≠ "date" →
        final_assign (parse_args cl) k = none →
        getVal out k = getVal cfg k) by
    refine ⟨hsuf.1, hsuf.2, ?_⟩
    intro hck
    exact hsuf.1 "use_prev_date" (.b cl.use_prev_date) (by decide)
      (by decide) (by decide) hfaflag hck
  unfold load_config at hok
  rcases hsd : cl.start_date with _ | s <;> rw [hsd] at hok <;>
    rcases hed : cl.end_date with _ | e <;> rw [hed] at hok <;>
    simp only [] at hok <;>
    split at hok
  all_goals try exact Except.noConfusion hok
  all_goals split at hok
  all_goals try exact Except.noConfusion hok
  all_goals have hout := Except.ok.inj hok
  all_goals subst hout
  · exact load_config_merge_shape cfg cfg cl _ _ _
      (fun k _ _ => ⟨rfl, rfl⟩)
  · exact load_config_merge_shape cfg _ cl _ _ _
      (fun k h1 h2 =>
        ⟨getVal_setVal_ne _ _ _ _ (Ne.symm h2), by
          rw [containsKey_setVal, decide_eq_false (Ne.symm h2),
            Bool.or_false]⟩)
  · exact load_config_merge_shape cfg _ cl _ _ _
      (fun k h1 h2 =>
        ⟨by
          rw [getVal_setVal_ne _ _ _ _ (Ne.symm h2),
            getVal_setVal_ne _ _ _ _ (Ne.symm h1)], by
          rw [containsKey_setVal, containsKey_setVal,
            decide_eq_false (Ne.symm h1), decide_eq_false (Ne.symm h2),
            Bool.or_false, Bool.or_false]⟩)
  · exact load_config_merge_shape cfg _ cl _ _ _
      (fun k h1 h2 =>
        ⟨by
          rw [getVal_setVal_ne _ _ _ _ (Ne.symm h2),
            getVal_setVal_ne _ _ _ _ (Ne.symm h1)], by
          rw [containsKey_setVal, containsKey_setVal,
            decide_eq_false (Ne.symm h1), decide_eq_false (Ne.symm h2),
            Bool.or_false, Bool.or_false]⟩)

/-- Witness for `load_config_override`: an empty command line merged
into a file configuration that carries `use_prev_date: true`. -/
theorem load_config_override_witness :
    load_config
        [("start_date", .s "2020-01-01"), ("end_date", .s "2020-01-02"),
          ("use_prev_date", .b true)] {}
      = .ok [("start_date", .dt "2020-01-01"),
          ("end_date", .dt "2020-01-02"), ("use_prev_date", .b false),
          ("date", .dt "2020-01-01")] ∧
    ((∀ k v, k ≠ "start_date" → k ≠ "end_date" → k ≠ "date" →
        final_assign (parse_args {}) k = some v →
        containsKey [("start_date", .s "2020-01-01"),
          ("end_date", .s "2020-01-02"),
          ("use_prev_date", .b true)] k = true →
        getVal [("start_date", .dt "2020-01-01"),
          ("end_date", .dt "2020-01-02"), ("use_prev_date", .b false),
          ("date", .dt "2020-01-01")] k = some v) ∧
      (∀ k, k ≠ "start_date" → k ≠ "end_date" → k ≠ "date" →
        final_assign (parse_args {}) k = none →
        getVal [("start_date", .dt "2020-01-01"),
          ("end_date", .dt "2020-01-02"), ("use_prev_date", .b false),
          ("date", .dt "2020-01-01")] k
          = getVal [("start_date", .s "2020-01-01"),
              ("end_date", .s "2020-01-02"),
              ("use_prev_date", .b true)] k) ∧
      (containsKey [("start_date", .s "2020-01-01"),
          ("end_date", .s "2020-01-02"),
          ("use_prev_date", .b true)] "use_prev_date" = true →
        getVal [("start_date", .dt "2020-01-01"),
          ("end_date", .dt "2020-01-02"), ("use_prev_date", .b false),
          ("date", .dt "2020-01-01")] "use_prev_date"
          = some (.b ({} : CmdLine).use_prev_date))) :=
  ⟨rfl, load_config_override _ {} _ rfl⟩

/-- **C8**: when no configured hour has a readable source file for the
date, `process_files` fails with the no-data error (the
`FileNotFoundError` the spec taxonomy calls `NoDataError`) before
producing any output, and the date-range loop still visits every date
and records each date's own result — one date's failure never aborts
the loop. -/
theorem process_files_no_data (cfg : ProcConfig)
    (file_on_disk : String → Bool) (read_gdas_file : String → Field)
    (hnone : ∀ h ∈ cfg.hours, file_on_disk (cfg.pattern h) = false) :
    process_files cfg file_on_disk read_gdas_file = .error .noData ∧
    (∀ (dates : List PDate)
      (step : PDate → Except ProcError (IoapiAttrs × Field × List String)),
      main_date_loop step dates = dates.map (fun d => (d, step d))) := by
  constructor
  · have hfiles : build_file_list cfg file_on_disk = [] := by
      unfold build_file_list
      rw [List.filterMap_eq_nil_iff]
      intro h hh
      rw [hnone h hh]
      rfl
    unfold process_files
    rw [hfiles]
    rfl
  · intro dates step
    induction dates with
    | nil => rfl
    | cons d rest ih =>
      unfold main_date_loop
      rw [ih, List.map_cons]

/-- Witness for `process_files_no_data`: the default hours 0/6/12/18
with an empty input directory. -/
theorem process_files_no_data_witness :
    (∀ h ∈ example_proc_config.hours,
      (fun _ => false) (example_proc_config.pattern h) = false) ∧
    (process_files example_proc_config
        (fun _ => false) (fun _ _ _ => none) = .error .noData ∧
      (∀ (dates : List PDate)
        (step : PDate → Except ProcError (IoapiAttrs × Field × List String)),
        main_date_loop step dates = dates.map (fun d => (d, step d)))) :=
  ⟨fun h _ => rfl,
    process_files_no_data example_proc_config (fun _ => false)
      (fun _ _ _ => none) (fun h _ => rfl)⟩

/-- **C9** (counterexample to the claim as stated): with `border = 95 ≥
90` (and `nlat = nlon = 4`), `validate_config` accepts the
configuration (it checks only key presence) and `setup_grid` happily
produces a grid — a *decreasing* latitude axis from `5` to `-5` — with
no `ConfigError`. -/
theorem setup_grid_no_validation_counterexample :
    setup_grid 4 4 95 = .ok (grid_lats 4 95, grid_lons 4) ∧
    validate_config
        [("input_dir", .s "indir"), ("output_dir", .s "outdir"),
          ("date", .dt "2020-01-01"), ("nlat", .i 4), ("nlon", .i 4),
          ("lat_border", .f 95), ("use_prev_date", .b false),
          ("create_full_files", .b false)] = .ok () ∧
    (grid_lats 4 95).getD 0 0 = 5 ∧ (grid_lats 4 95).getD 3 0 = -5 := by
  refine ⟨?_, rfl, ?_, ?_⟩
  · unfold setup_grid
    rw [if_neg (by norm_num)]
  · rw [grid_lats, linspace_getD _ _ _ 0 (by norm_num)]
    norm_num
  · rw [grid_lats, linspace_getD _ _ _ 3 (by norm_num)]
    norm_num

/-- **C9** (amended): the source performs no value validation:
`validate_config` accepts any configuration that has the required keys
(whatever their values), `setup_grid` produces a grid for every
`nlat ≠ 1` — including `nlat = 0`, `nlon < 2` and `border ≥ 90` — and
for `nlat = 1` it fails with a `ZeroDivisionError` from the unused
`lat_step` expression, not with a configuration error. -/
theorem setup_grid_no_validation (nlat nlon : ℕ) (border : ℚ)
    (cfg : List (String × CVal)) (hn : nlat ≠ 1)
    (hall : ∀ k ∈ required_keys, containsKey cfg k = true) :
    setup_grid nlat nlon border
        = .ok (grid_lats nlat border, grid_lons nlon) ∧
    validate_config cfg = .ok () ∧
    setup_grid 1 nlon border = .error .zeroDivisionError := by
  refine ⟨?_, ?_, ?_⟩
  · unfold setup_grid
    rw [if_neg (by omega)]
  · unfold validate_config
    have hnil : required_keys.filter (fun k => !(containsKey cfg k)) = [] := by
      rw [List.filter_eq_nil_iff]
      intro k hk
      simp [hall k hk]
    rw [hnil]
    rfl
  · unfold setup_grid
    rw [if_pos (by norm_num)]

/-- Witness for `setup_grid_no_validation` at `nlat = nlon = 4`,
`border = 95`, with a configuration holding every required key. -/
theorem setup_grid_no_validation_witness :
    ((4 : ℕ) ≠ 1 ∧
      (∀ k ∈ required_keys, containsKey
        [("input_dir", .s "indir"), ("output_dir", .s "outdir"),
          ("date", .dt "2020-01-01"), ("nlat", .i 4), ("nlon", .i 4),
          ("lat_border", .f 95), ("use_prev_date", .b false),
          ("create_full_files", .b false)] k = true)) ∧
    (setup_grid 4 4 95 = .ok (grid_lats 4 95, grid_lons 4) ∧
      validate_config
        [("input_dir", .s "indir"), ("output_dir", .s "outdir"),
          ("date", .dt "2020-01-01"), ("nlat", .i 4), ("nlon", .i 4),
          ("lat_border", .f 95), ("use_prev_date", .b false),
          ("create_full_files", .b false)] = .ok () ∧
      setup_grid 1 4 95 = .error .zeroDivisionError) :=
  ⟨⟨by decide, by decide⟩,
    setup_grid_no_validation 4 4 95 _ (by decide) (by decide)⟩

/-- **C10**: `process_files` never invokes the `fill_missing_values`
pass, so for the same source files two configurations differing only in
the `use_prev_date` flag produce the identical attribute block, daily
field and `.dat` lines — the written values do not depend on the flag. -/
theorem process_files_ignores_fill_flag (cfg : ProcConfig) (b : Bool)
    (file_on_disk : String → Bool) (read_gdas_file : String → Field) :
    process_files { cfg with use_prev_date := b } file_on_disk read_gdas_file
      = process_files cfg file_on_disk read_gdas_file := rfl

end GdasCmaq
